import Mathlib

set_option maxRecDepth 4096

/-!
Verification development for the freerouter repository (an OpenAI-compatible
routing proxy).  Every definition below is a shallow embedding of a function
of the TypeScript source under src/; the file and line of the embedded code
are given in each doc comment.  Machine arithmetic in the source is plain
JavaScript number arithmetic on small non-negative integers, embedded as Nat.
-/

/-! # Part 1: router tier model (src/src/router/types.ts, index.ts) -/

/-- Tier, from src/src/router/types.ts line 12:
the four classification tiers. -/
inductive Tier
  | SIMPLE
  | MEDIUM
  | COMPLEX
  | REASONING
deriving DecidableEq, Repr

/-- Rank of a tier, from the tierRank record built inline in route
(src/src/router/index.ts lines 82, src/unnamed/part_002 line 85):
SIMPLE 0, MEDIUM 1, COMPLEX 2, REASONING 3. -/
def tierRank : Tier → Nat
  | Tier.SIMPLE => 0
  | Tier.MEDIUM => 1
  | Tier.COMPLEX => 2
  | Tier.REASONING => 3

/-- OverridesConfig, from src/src/router/types.ts lines 70 to 75
(the agenticMode flag does not influence the chosen tier, only which tier
table is consulted afterwards, and is omitted here). -/
structure OverridesCfg where
  maxTokensForceComplex : Nat
  structuredOutputMinTier : Tier
  ambiguousDefaultTier : Tier
deriving DecidableEq, Repr

/-- The overrides of DEFAULT_ROUTING_CONFIG, src/src/router/config.ts
lines 205 to 210. -/
def defaultOverrides : OverridesCfg :=
  { maxTokensForceComplex := 100000
    structuredOutputMinTier := Tier.MEDIUM
    ambiguousDefaultTier := Tier.MEDIUM }

/-- Does the pattern occur at the head of the list. -/
def beginsWith : List Char → List Char → Bool
  | _, [] => true
  | [], _ :: _ => false
  | c :: cs, p :: ps => c = p && beginsWith cs ps

/-- Does the pattern occur anywhere in the list (substring search). -/
def containsSeq : List Char → List Char → Bool
  | [], p => beginsWith [] p
  | s :: cs, p => beginsWith (s :: cs) p || containsSeq cs p

/-- The regular expression test of the routers, with source text
/json|structured|schema/i applied by String.prototype.test: true iff the
string contains one of the three keywords, case-insensitively
(src/src/router/index.ts line 64, src/unnamed/part_002 line 67). -/
def regexJsonStructuredSchema (s : String) : Bool :=
  let l := s.data.map Char.toLower
  containsSeq l "json".data || containsSeq l "structured".data ||
    containsSeq l "schema".data

/-- Ceiling of len over 4, the token estimate of route:
Math.ceil(text.length / 4). -/
def ceilDiv4 (len : Nat) : Nat := (len + 3) / 4

/-- Tier decision of route, src/src/router/index.ts lines 27 to 106.
The classifier classifyByRules lives in src/router/rules.ts which is not in
the source snapshot; route only consumes its tier field for the tier
decision, so that field is taken as the parameter ruleTier here.  The
agentic-score branches only select which tier table is consulted later and
never change the tier, so they are omitted.  This version (the file
src/src/router/index.ts, imported by the server) tests the structured
output regex against the SYSTEM prompt:
hasStructuredOutput = systemPrompt ? regex.test(systemPrompt) : false. -/
def routeTier (ruleTier : Option Tier) (prompt : String)
    (systemPrompt : Option String) (ov : OverridesCfg) : Tier :=
  let fullText := (systemPrompt.getD "") ++ " " ++ prompt
  let estimatedTokens := ceilDiv4 fullText.length
  if estimatedTokens > ov.maxTokensForceComplex then
    Tier.COMPLEX
  else
    let hasStructuredOutput :=
      match systemPrompt with
      | some sp => regexJsonStructuredSchema sp
      | none => false
    let tier := ruleTier.getD ov.ambiguousDefaultTier
    if hasStructuredOutput &&
        decide (tierRank tier < tierRank ov.structuredOutputMinTier) then
      ov.structuredOutputMinTier
    else
      tier

/-- Tier decision of route in the newer copy of the router shipped in the
repository, src/unnamed/part_002 lines 27 to 109 (the CHANGELOG 1.2.0 entry
documents this revision).  Identical to routeTier except that the
structured output regex is tested against the USER prompt:
hasStructuredOutput = regex.test(prompt) (line 67), and the classifier is
fed the user-only token estimate (irrelevant here since the classifier
result is a parameter). -/
def routeTierV2 (ruleTier : Option Tier) (prompt : String)
    (systemPrompt : Option String) (ov : OverridesCfg) : Tier :=
  let fullText := (systemPrompt.getD "") ++ " " ++ prompt
  let estimatedTotalTokens := ceilDiv4 fullText.length
  if estimatedTotalTokens > ov.maxTokensForceComplex then
    Tier.COMPLEX
  else
    let hasStructuredOutput := regexJsonStructuredSchema prompt
    let tier := ruleTier.getD ov.ambiguousDefaultTier
    if hasStructuredOutput &&
        decide (tierRank tier < tierRank ov.structuredOutputMinTier) then
      ov.structuredOutputMinTier
    else
      tier

/-! # Part 2: mode-override parser (server, src/src/logger.ts lines 503 to 546) -/

/-- Character class of the JavaScript regex escape for whitespace, restricted
to its ASCII members (the only ones the prompts of interest contain). -/
def isJsWs (c : Char) : Bool :=
  c = ' ' || c = '\t' || c = '\n' || c = '\r' || c = '\x0b' || c = '\x0c'

/-- Character class [a-z] under the i flag: ASCII letters. -/
def isAsciiLetterB (c : Char) : Bool :=
  ('a' ≤ c && c ≤ 'z') || ('A' ≤ c && c ≤ 'Z')

/-- Character class [:\s,] of pattern 2 of detectModeOverride. -/
def isSepChar (c : Char) : Bool :=
  c = ':' || c = ',' || isJsWs c

/-- String.prototype.trim on the character list: drop whitespace from both
ends. -/
def trimL (l : List Char) : List Char :=
  ((l.dropWhile isJsWs).reverse.dropWhile isJsWs).reverse

/-- Lowercasing of a character list, String.prototype.toLowerCase. -/
def toLowerL (l : List Char) : List Char := l.map Char.toLower

/-- The modeMap object of detectModeOverride, src/src/logger.ts
lines 504 to 516. -/
def modeMapL (w : String) : Option String :=
  if w = "simple" then some "SIMPLE"
  else if w = "basic" then some "SIMPLE"
  else if w = "cheap" then some "SIMPLE"
  else if w = "medium" then some "MEDIUM"
  else if w = "balanced" then some "MEDIUM"
  else if w = "complex" then some "COMPLEX"
  else if w = "advanced" then some "COMPLEX"
  else if w = "max" then some "REASONING"
  else if w = "reasoning" then some "REASONING"
  else if w = "think" then some "REASONING"
  else if w = "deep" then some "REASONING"
  else none

/-- Pattern 1 of detectModeOverride: the regex match of
slash, then [a-z]+ (i flag), then one or more whitespace, anchored at the
start (line 519).  Returns the captured word and the remainder after the
whole match. -/
def matchSlash (l : List Char) : Option (List Char × List Char) :=
  match l with
  | [] => none
  | c :: rest =>
    if c = '/' then
      let w := rest.takeWhile isAsciiLetterB
      if w = [] then none
      else
        let r1 := rest.dropWhile isAsciiLetterB
        if r1.takeWhile isJsWs = [] then none
        else some (w, r1.dropWhile isJsWs)
    else none

/-- Pattern 2 of detectModeOverride: [a-z]+ (i flag), one or more
whitespace, the literal word mode (i flag), then one or more of
colon, whitespace or comma, anchored at the start (line 528). -/
def matchWordMode (l : List Char) : Option (List Char × List Char) :=
  let w := l.takeWhile isAsciiLetterB
  if w = [] then none
  else
    let r1 := l.dropWhile isAsciiLetterB
    if r1.takeWhile isJsWs = [] then none
    else
      match r1.dropWhile isJsWs with
      | c1 :: c2 :: c3 :: c4 :: r3 =>
        if c1.toLower = 'm' && c2.toLower = 'o' && c3.toLower = 'd' &&
            c4.toLower = 'e' then
          if r3.takeWhile isSepChar = [] then none
          else some (w, r3.dropWhile isSepChar)
        else none
      | _ => none

/-- Pattern 3 of detectModeOverride: open bracket, [a-z]+ (i flag), close
bracket, then optional whitespace, anchored at the start (line 537). -/
def matchBracket (l : List Char) : Option (List Char × List Char) :=
  match l with
  | [] => none
  | c :: rest =>
    if c = '\x5b' then
      let w := rest.takeWhile isAsciiLetterB
      if w = [] then none
      else
        match rest.dropWhile isAsciiLetterB with
        | c2 :: r2 =>
          if c2 = '\x5d' then some (w, r2.dropWhile isJsWs) else none
        | [] => none
    else none

/-- detectModeOverride, src/src/logger.ts lines 503 to 546: try the three
patterns in order; on a regex match look the lowercased word up in modeMap
and, when found, return the forced tier together with the prompt with the
matched prefix removed and then trimmed; otherwise fall through to the next
pattern; return none when nothing matches. -/
def detectModeOverride (prompt : String) : Option (String × String) :=
  let l := prompt.data
  let try1 :=
    match matchSlash l with
    | some (w, rest) =>
      (modeMapL (String.mk (toLowerL w))).map
        (fun tier => (tier, String.mk (trimL rest)))
    | none => none
  match try1 with
  | some r => some r
  | none =>
    let try2 :=
      match matchWordMode l with
      | some (w, rest) =>
        (modeMapL (String.mk (toLowerL w))).map
          (fun tier => (tier, String.mk (trimL rest)))
      | none => none
    match try2 with
    | some r => some r
    | none =>
      match matchBracket l with
      | some (w, rest) =>
        (modeMapL (String.mk (toLowerL w))).map
          (fun tier => (tier, String.mk (trimL rest)))
      | none => none

/-! # Part 3: JSON values, the runtime JSON primitives, and the config loader -/

/-- Dynamic JSON value, the data the source passes through JSON.parse,
JSON.stringify and the config deep merge.  JavaScript object fields are an
association list in insertion order; numbers are restricted to the integers
occurring in the embedded code paths. -/
inductive Json
  | null
  | boolean (b : Bool)
  | num (n : Int)
  | str (s : String)
  | arr (xs : List Json)
  | obj (fields : List (String × Json))

/-- Field lookup on a JavaScript object: first binding of the key. -/
def jsLookup (k : String) : List (String × Json) → Option Json
  | [] => none
  | (k2, v) :: rest => if k2 = k then some v else jsLookup k rest

/-- JavaScript property assignment obj[k] = v on an association list:
replace the binding in place when the key exists, else append it. -/
def setKey (l : List (String × Json)) (k : String) (v : Json) :
    List (String × Json) :=
  match l with
  | [] => [(k, v)]
  | (k2, w) :: rest =>
    if k2 = k then (k2, v) :: rest else (k2, w) :: setKey rest k v

/-- JavaScript truthiness of a JSON value. -/
def jsTruthy : Json → Bool
  | Json.null => false
  | Json.boolean b => b
  | Json.num n => n ≠ 0
  | Json.str s => s ≠ ""
  | Json.arr _ => true
  | Json.obj _ => true

/-- Escape of one character inside a JSON string literal, as produced by
JSON.stringify. -/
def jsonEscapeChar (c : Char) : List Char :=
  if c = '"' then ['\\', '"']
  else if c = '\\' then ['\\', '\\']
  else if c = '\n' then ['\\', 'n']
  else if c = '\t' then ['\\', 't']
  else if c = '\r' then ['\\', 'r']
  else [c]

/-- Quoted JSON string literal as produced by JSON.stringify. -/
def jsonQuote (s : String) : String :=
  String.mk ('"' :: (s.data.flatMap jsonEscapeChar) ++ ['"'])

/-- Pending output piece of the JSON printer: a value still to print or a
ready literal. -/
inductive SJob
  | jv (j : Json)
  | raw (s : String)

/-- Comma-interspersed printing jobs of the elements of an array. -/
def sJobsOfArr : List Json → List SJob
  | [] => []
  | x :: rest =>
    SJob.jv x :: rest.flatMap (fun y => [SJob.raw ",", SJob.jv y])

/-- Comma-interspersed printing jobs of the fields of an object. -/
def sJobsOfFields : List (String × Json) → List SJob
  | [] => []
  | (k, v) :: rest =>
    SJob.raw (jsonQuote k ++ ":") :: SJob.jv v ::
      rest.flatMap (fun p => [SJob.raw ("," ++ jsonQuote p.1 ++ ":"), SJob.jv p.2])

/-- Fuel-indexed worklist printer behind the JSON.stringify model. -/
def strRun : Nat → List SJob → String
  | 0, _ => ""
  | _ + 1, [] => ""
  | fuel + 1, SJob.raw s :: rest => s ++ strRun fuel rest
  | fuel + 1, SJob.jv j :: rest =>
    match j with
    | Json.null => "null" ++ strRun fuel rest
    | Json.boolean true => "true" ++ strRun fuel rest
    | Json.boolean false => "false" ++ strRun fuel rest
    | Json.num n => toString n ++ strRun fuel rest
    | Json.str s => jsonQuote s ++ strRun fuel rest
    | Json.arr xs =>
      "\x5b" ++ strRun fuel (sJobsOfArr xs ++ SJob.raw "\x5d" :: rest)
    | Json.obj fs =>
      "\x7b" ++ strRun fuel (sJobsOfFields fs ++ SJob.raw "\x7d" :: rest)

/-- Model of the runtime primitive JSON.stringify on the Json model
(string escapes restricted to the characters of jsonEscapeChar; integer
numbers; fuel bounded, ample for every value occurring here). -/
def jsonStringifyModel (j : Json) : String := strRun 1000000 [SJob.jv j]

/-- JSON source whitespace. -/
def isJsonWs (c : Char) : Bool :=
  c = ' ' || c = '\t' || c = '\n' || c = '\r'

/-- Digit test for the number production. -/
def isDigitB (c : Char) : Bool := '0' ≤ c && c ≤ '9'

/-- Digits of a nonnegative integer literal. -/
def digitsToNat (acc : Nat) : List Char → Nat
  | [] => acc
  | c :: rest => digitsToNat (acc * 10 + (c.toNat - '0'.toNat)) rest

/-- String-literal body of the JSON grammar: read until the closing quote,
decoding the escapes jsonEscapeChar produces. -/
def parseStrBody (fuel : Nat) (acc : List Char) (l : List Char) :
    Option (String × List Char) :=
  match fuel with
  | 0 => none
  | fuel + 1 =>
    match l with
    | [] => none
    | c :: rest =>
      if c = '"' then some (String.mk acc.reverse, rest)
      else if c = '\\' then
        match rest with
        | [] => none
        | e :: rest2 =>
          if e = '"' then parseStrBody fuel ('"' :: acc) rest2
          else if e = '\\' then parseStrBody fuel ('\\' :: acc) rest2
          else if e = '/' then parseStrBody fuel ('/' :: acc) rest2
          else if e = 'n' then parseStrBody fuel ('\n' :: acc) rest2
          else if e = 't' then parseStrBody fuel ('\t' :: acc) rest2
          else if e = 'r' then parseStrBody fuel ('\r' :: acc) rest2
          else none
      else parseStrBody fuel (c :: acc) rest

/-- Model of the runtime primitive JSON.parse on the Json model, a
fuel-indexed recursive-descent reader of one value followed by the rest of
the input (numbers restricted to integer literals, string escapes as in
jsonEscapeChar; none models a thrown SyntaxError). -/
def parseVal (fuel : Nat) (l : List Char) : Option (Json × List Char) :=
  match fuel with
  | 0 => none
  | fuel + 1 =>
    match l.dropWhile isJsonWs with
    | [] => none
    | c :: rest =>
      if c = 'n' then
        match rest with
        | 'u' :: 'l' :: 'l' :: r => some (Json.null, r)
        | _ => none
      else if c = 't' then
        match rest with
        | 'r' :: 'u' :: 'e' :: r => some (Json.boolean true, r)
        | _ => none
      else if c = 'f' then
        match rest with
        | 'a' :: 'l' :: 's' :: 'e' :: r => some (Json.boolean false, r)
        | _ => none
      else if c = '"' then
        (parseStrBody fuel [] rest).map (fun (s, r) => (Json.str s, r))
      else if c = '-' then
        let ds := rest.takeWhile isDigitB
        if ds = [] then none
        else some (Json.num (-(digitsToNat 0 ds : Int)), rest.dropWhile isDigitB)
      else if isDigitB c then
        let ds := (c :: rest).takeWhile isDigitB
        some (Json.num (digitsToNat 0 ds : Int), (c :: rest).dropWhile isDigitB)
      else if c = '\x5b' then
        match rest.dropWhile isJsonWs with
        | '\x5d' :: r => some (Json.arr [], r)
        | _ => parseElems fuel [] rest
      else if c = '\x7b' then
        match rest.dropWhile isJsonWs with
        | '\x7d' :: r => some (Json.obj [], r)
        | _ => parseMembers fuel [] rest
      else none
where
  parseElems (fuel : Nat) (acc : List Json) (l : List Char) :
      Option (Json × List Char) :=
    match fuel with
    | 0 => none
    | fuel + 1 =>
      match parseVal fuel l with
      | none => none
      | some (v, r) =>
        match r.dropWhile isJsonWs with
        | ',' :: r2 => parseElems fuel (v :: acc) r2
        | '\x5d' :: r2 => some (Json.arr (v :: acc).reverse, r2)
        | _ => none
  parseMembers (fuel : Nat) (acc : List (String × Json)) (l : List Char) :
      Option (Json × List Char) :=
    match fuel with
    | 0 => none
    | fuel + 1 =>
      match l.dropWhile isJsonWs with
      | '"' :: r =>
        match parseStrBody fuel [] r with
        | none => none
        | some (k, r2) =>
          match r2.dropWhile isJsonWs with
          | ':' :: r3 =>
            match parseVal fuel r3 with
            | none => none
            | some (v, r4) =>
              match r4.dropWhile isJsonWs with
              | ',' :: r5 => parseMembers fuel ((k, v) :: acc) r5
              | '\x7d' :: r5 => some (Json.obj ((k, v) :: acc).reverse, r5)
              | _ => none
          | _ => none
      | _ => none

/-- Model of JSON.parse: parse one value and require only trailing
whitespace after it. -/
def jsonParseModel (s : String) : Option Json :=
  match parseVal (s.length + 1) s.data with
  | some (v, rest) => if rest.dropWhile isJsonWs = [] then some v else none
  | none => none

/-- DEFAULT_CONFIG of src/src/config.ts lines 65 to 102, as the JSON value
the loader manipulates. -/
def defaultConfigJson : Json :=
  Json.obj
    [ ("port", Json.num 18800)
    , ("host", Json.str "127.0.0.1")
    , ("providers", Json.obj
        [ ("anthropic", Json.obj
            [ ("baseUrl", Json.str "https://api.anthropic.com")
            , ("api", Json.str "anthropic") ])
        , ("kimi-coding", Json.obj
            [ ("baseUrl", Json.str "https://api.kimi.com/coding/v1")
            , ("api", Json.str "openai")
            , ("headers", Json.obj [("User-Agent", Json.str "KimiCLI/0.77")]) ]) ])
    , ("tiers", Json.obj
        [ ("SIMPLE", Json.obj
            [ ("primary", Json.str "kimi-coding/kimi-for-coding")
            , ("fallback", Json.arr [Json.str "anthropic/claude-haiku-4-5"]) ])
        , ("MEDIUM", Json.obj
            [ ("primary", Json.str "anthropic/claude-sonnet-4-5")
            , ("fallback", Json.arr [Json.str "anthropic/claude-opus-4-6"]) ])
        , ("COMPLEX", Json.obj
            [ ("primary", Json.str "anthropic/claude-opus-4-6")
            , ("fallback", Json.arr [Json.str "anthropic/claude-haiku-4-5"]) ])
        , ("REASONING", Json.obj
            [ ("primary", Json.str "anthropic/claude-opus-4-6")
            , ("fallback", Json.arr [Json.str "anthropic/claude-haiku-4-5"]) ]) ])
    , ("agenticTiers", Json.obj
        [ ("SIMPLE", Json.obj
            [ ("primary", Json.str "kimi-coding/kimi-for-coding")
            , ("fallback", Json.arr [Json.str "anthropic/claude-haiku-4-5"]) ])
        , ("MEDIUM", Json.obj
            [ ("primary", Json.str "anthropic/claude-sonnet-4-5")
            , ("fallback", Json.arr [Json.str "anthropic/claude-opus-4-6"]) ])
        , ("COMPLEX", Json.obj
            [ ("primary", Json.str "anthropic/claude-opus-4-6")
            , ("fallback", Json.arr [Json.str "anthropic/claude-haiku-4-5"]) ])
        , ("REASONING", Json.obj
            [ ("primary", Json.str "anthropic/claude-opus-4-6")
            , ("fallback", Json.arr [Json.str "anthropic/claude-haiku-4-5"]) ]) ])
    , ("thinking", Json.obj
        [ ("adaptive", Json.arr
            [Json.str "claude-opus-4-6", Json.str "claude-opus-4.6"])
        , ("enabled", Json.obj
            [ ("models", Json.arr [Json.str "claude-sonnet-4-5"])
            , ("budget", Json.num 4096) ]) ])
    , ("auth", Json.obj
        [ ("default", Json.str "openclaw")
        , ("openclaw", Json.obj
            [ ("type", Json.str "openclaw")
            , ("profilesPath",
               Json.str "~/.openclaw/agents/main/agent/auth-profiles.json") ]) ]) ]

/-- Fuel-indexed field merge behind deepMerge, src/src/config.ts
lines 131 to 143: the result starts as a copy of the target; each source
key is assigned, recursing when both the original target value and the
source value are plain objects, with the source value winning otherwise
(arrays replaced, not merged). -/
def mergeFieldsF : Nat → List (String × Json) → List (String × Json) →
    List (String × Json) → List (String × Json)
  | 0, _, acc, _ => acc
  | _ + 1, _, acc, [] => acc
  | fuel + 1, target, acc, (k, sv) :: rest =>
    let newV :=
      match jsLookup k target, sv with
      | some (Json.obj tf), Json.obj sf => Json.obj (mergeFieldsF fuel tf tf sf)
      | _, _ => sv
    mergeFieldsF fuel target (setKey acc k newV) rest

/-- deepMerge of src/src/config.ts lines 131 to 143 at the call site of
loadConfig, where both arguments are records. -/
def deepMergeModel (target source : Json) : Json :=
  match target, source with
  | Json.obj tf, Json.obj sf => Json.obj (mergeFieldsF 1000000 tf tf sf)
  | _, _ => source

/-- loadConfig, src/src/config.ts lines 167 to 197, as a function of the
outcome of finding and parsing the config file: none when findConfigFile
returned null (no file), some none when readFileSync or JSON.parse threw
(the catch branch logs and falls back to the built-in defaults), and
some (some fc) for a successfully parsed file, which is deep-merged over
the defaults.  The returned value is what the module publishes as the
active snapshot. -/
def loadConfigModel : Option (Option Json) → Json
  | none => defaultConfigJson
  | some none => defaultConfigJson
  | some (some fc) => deepMergeModel defaultConfigJson fc

/-- reloadConfig, src/src/config.ts lines 202 to 205: clears the cached
snapshot and runs loadConfig again; the previously active snapshot prev is
never consulted. -/
def reloadConfigModel (_prev : Option Json) (file : Option (Option Json)) :
    Json :=
  loadConfigModel file

/-- Property read cfg.key on a JSON value. -/
def getField (j : Json) (k : String) : Option Json :=
  match j with
  | Json.obj fs => jsLookup k fs
  | _ => none

/-! # Part 4: the Anthropic translator (provider, src/unnamed/part_001;
the older copy src/src/provider.ts has the same structure without tools) -/

/-- OpenAI function payload of a tool call (part_001 line 33). -/
structure OAFunction where
  name : String
  arguments : String
deriving DecidableEq, Repr

/-- OpenAIToolCall (part_001 lines 30 to 34); typeF models the literal
field named type, always the string function. -/
structure OpenAIToolCall where
  id : String
  typeF : String
  function : OAFunction
deriving DecidableEq, Repr

/-- One part of a structured message content list (part_001 line 39). -/
structure ContentPart where
  type : String
  text : Option String
deriving DecidableEq, Repr

/-- The content field of an OpenAI chat message: a string, null, or a part
list (part_001 line 39). -/
inductive MsgContent
  | strC (s : String)
  | nullC
  | parts (ps : List ContentPart)
deriving DecidableEq, Repr

/-- ChatMessage (part_001 lines 37 to 43); an absent tool_calls field is
the empty list. -/
structure ChatMessageL where
  role : String
  content : MsgContent
  tool_calls : List OpenAIToolCall
  tool_call_id : Option String
deriving DecidableEq, Repr

/-- Anthropic message content block, the dynamic objects the translator
builds and reads back; optional fields mirror possibly-absent JSON
properties. -/
inductive ContentBlock
  | textB (text : Option String)
  | toolUse (id : Option String) (name : Option String) (input : Option Json)
  | toolResult (tool_use_id : String) (content : String)
  | thinkingB
  | otherB (t : String)

/-- Content of an Anthropic message: flat text or a block list. -/
inductive AContent
  | textC (s : String)
  | blocksC (bs : List ContentBlock)

/-- Anthropic message. -/
structure AMsg where
  role : String
  content : AContent

/-- Text extraction used throughout convertMessagesToAnthropic:
a string content is itself; null becomes the empty join; a part list keeps
its text parts and joins them with the given separator (Array.join turns
an undefined text into the empty string). -/
def msgText (sep : String) : MsgContent → String
  | MsgContent.strC s => s
  | MsgContent.nullC => ""
  | MsgContent.parts ps =>
    String.intercalate sep
      ((ps.filter (fun p => p.type = "text")).map (fun p => p.text.getD ""))

/-- JavaScript truthiness of a message content value (null and the empty
string are falsy, any array is truthy). -/
def contentTruthy : MsgContent → Bool
  | MsgContent.nullC => false
  | MsgContent.strC s => s ≠ ""
  | MsgContent.parts _ => true

/-- JSON encoding of one content part, for the tool-role branch. -/
def partToJson (p : ContentPart) : Json :=
  Json.obj
    ([("type", Json.str p.type)] ++
      (match p.text with
       | some t => [("text", Json.str t)]
       | none => []))

/-- Content of a tool-role message as sent in a tool_result block
(part_001 line 152): a string is passed through, anything else is
JSON.stringify of the value with null replaced by the empty string. -/
def toolContentStr : MsgContent → String
  | MsgContent.strC s => s
  | MsgContent.nullC => jsonStringifyModel (Json.str "")
  | MsgContent.parts ps => jsonStringifyModel (Json.arr (ps.map partToJson))

/-- Is a block a tool_result block. -/
def isToolResultB : ContentBlock → Bool
  | ContentBlock.toolResult _ _ => true
  | _ => false

/-- Loop body of convertMessagesToAnthropic, src/unnamed/part_001
lines 129 to 192, accumulating the system string and the converted
message list in order. -/
def convertLoop : String → List AMsg → List ChatMessageL → String × List AMsg
  | sys, msgs, [] => (sys, msgs)
  | sys, msgs, m :: rest =>
    if m.role = "system" || m.role = "developer" then
      let text := msgText "\n" m.content
      convertLoop (if sys = "" then text else sys ++ "\n" ++ text) msgs rest
    else if m.role = "tool" then
      let tr := ContentBlock.toolResult (m.tool_call_id.getD "")
        (toolContentStr m.content)
      let msgs' :=
        match msgs.getLast? with
        | some last =>
          match last.content with
          | AContent.blocksC bs =>
            if last.role = "user" && bs.all isToolResultB then
              msgs.dropLast ++ [⟨last.role, AContent.blocksC (bs ++ [tr])⟩]
            else msgs ++ [⟨"user", AContent.blocksC [tr]⟩]
          | _ => msgs ++ [⟨"user", AContent.blocksC [tr]⟩]
        | none => msgs ++ [⟨"user", AContent.blocksC [tr]⟩]
      convertLoop sys msgs' rest
    else if m.role = "assistant" && decide (m.tool_calls.length > 0) then
      let textBlocks :=
        if contentTruthy m.content then
          let t := msgText "" m.content
          if t ≠ "" then [ContentBlock.textB (some t)] else []
        else []
      let toolBlocks := m.tool_calls.map (fun tc =>
        ContentBlock.toolUse (some tc.id) (some tc.function.name)
          (some ((jsonParseModel tc.function.arguments).getD (Json.obj []))))
      convertLoop sys
        (msgs ++ [⟨"assistant", AContent.blocksC (textBlocks ++ toolBlocks)⟩])
        rest
    else
      let text := msgText "\n" m.content
      convertLoop sys
        (msgs ++ [⟨if m.role = "assistant" then "assistant" else "user",
                   AContent.textC text⟩])
        rest

/-- convertMessagesToAnthropic, src/unnamed/part_001 lines 129 to 192. -/
def convertMessagesToAnthropic (ms : List ChatMessageL) : String × List AMsg :=
  convertLoop "" [] ms

/-- A JavaScript value in the tool_choice position of a request
(part_001 line 54 types it unknown): undefined, null, a string, a number,
a boolean, an array, or an object whose optional function property has an
optional name property. -/
inductive JsVal
  | undef
  | nullv
  | strv (s : String)
  | numv (n : Int)
  | boolv (b : Bool)
  | arrv
  | objv (functionName : Option (Option String))
deriving DecidableEq, Repr

/-- Anthropic tool_choice object. -/
structure AnthToolChoice where
  type : String
  name : Option String
deriving DecidableEq, Repr

/-- convertToolChoiceToAnthropic, src/unnamed/part_001 lines 114 to 123.
An array has typeof object and no function property, so it falls through
to auto; null is excluded by the explicit null test; a function name that
is the empty string is falsy and also falls through to auto. -/
def convertToolChoiceToAnthropic (tc : JsVal) : AnthToolChoice :=
  if tc = JsVal.strv "none" then ⟨"none", none⟩
  else if tc = JsVal.strv "auto" || tc = JsVal.undef then ⟨"auto", none⟩
  else if tc = JsVal.strv "required" then ⟨"any", none⟩
  else
    match tc with
    | JsVal.objv (some (some n)) =>
      if n ≠ "" then ⟨"tool", some n⟩ else ⟨"auto", none⟩
    | _ => ⟨"auto", none⟩

/-- Nullish coalescing b.input ?? emptyObject used on both response paths:
an absent or JSON-null input becomes the empty object. -/
def jsNullish : Option Json → Json
  | none => Json.obj []
  | some Json.null => Json.obj []
  | some v => v

/-- tool_use blocks of a response content list converted to OpenAI
tool_calls, src/unnamed/part_001 lines 303 to 308: fresh ids use Date.now()
(the parameter now) and the block index; a missing name becomes the empty
string; arguments is JSON.stringify of the input with null replaced by the
empty object. -/
def contentToToolCalls (now : Nat) (content : List ContentBlock) :
    List OpenAIToolCall :=
  let toolUseBlocks := content.filter (fun b =>
    match b with
    | ContentBlock.toolUse _ _ _ => true
    | _ => false)
  toolUseBlocks.mapIdx (fun idx b =>
    match b with
    | ContentBlock.toolUse id name input =>
      { id := id.getD ("call_" ++ toString now ++ "_" ++ toString idx)
        typeF := "function"
        function :=
          { name := name.getD ""
            arguments := jsonStringifyModel (jsNullish input) } }
    | _ => { id := "", typeF := "function", function := { name := "", arguments := "" } })

/-- Usage object of a chat completion response. -/
structure OAUsage where
  prompt_tokens : Nat
  completion_tokens : Nat
  total_tokens : Nat
deriving DecidableEq, Repr

/-- Message object of a non-streaming chat completion choice. -/
structure RespMessage where
  role : String
  content : Option String
  tool_calls : List OpenAIToolCall
deriving DecidableEq, Repr

/-- Choice of a non-streaming chat completion response. -/
structure OAChoice where
  index : Nat
  message : RespMessage
  finish_reason : String
deriving DecidableEq, Repr

/-- Non-streaming chat completion response object. -/
structure OAResponse where
  id : String
  object : String
  created : Nat
  model : String
  choices : List OAChoice
  usage : OAUsage
deriving DecidableEq, Repr

/-- The non-streaming Anthropic-to-OpenAI response conversion of
forwardToAnthropic, src/unnamed/part_001 lines 289 to 334 (the older copy
src/src/provider.ts lines 198 to 231 is the same without the tool_calls
translation).  The usage parameter carries input_tokens and output_tokens
when the upstream sent a usage object. -/
def buildOpenAIResponse (now : Nat) (modelName : String)
    (content : List ContentBlock) (usage : Option (Nat × Nat))
    (stop_reason : Option String) : OAResponse :=
  let textContent := String.join
    ((content.filter (fun b =>
        match b with
        | ContentBlock.textB _ => true
        | _ => false)).map (fun b =>
        match b with
        | ContentBlock.textB t => t.getD ""
        | _ => ""))
  let toolCalls := contentToToolCalls now content
  let finishReason :=
    if stop_reason = some "tool_use" then "tool_calls"
    else if stop_reason = some "end_turn" then "stop"
    else stop_reason.getD "stop"
  let msgContent : Option String :=
    if textContent ≠ "" then some textContent
    else if toolCalls.length > 0 then none
    else some ""
  { id := "chatcmpl-" ++ toString now
    object := "chat.completion"
    created := now / 1000
    model := "clawrouter/" ++ modelName
    choices := [{ index := 0
                  message := { role := "assistant", content := msgContent
                               tool_calls := toolCalls }
                  finish_reason := finishReason }]
    usage := { prompt_tokens := (usage.map Prod.fst).getD 0
               completion_tokens := (usage.map Prod.snd).getD 0
               total_tokens :=
                 (usage.map Prod.fst).getD 0 + (usage.map Prod.snd).getD 0 } }

/-- Function fragment inside a streamed tool_calls delta. -/
structure FnDelta where
  name : Option String
  arguments : Option String
deriving DecidableEq, Repr

/-- One entry of a streamed delta.tool_calls list; typeF models the field
named type, present only on the first chunk of a call. -/
structure ToolCallDelta where
  index : Int
  id : Option String
  typeF : Option String
  function : FnDelta
deriving DecidableEq, Repr

/-- Delta object of a streamed chunk choice. -/
inductive Delta
  | emptyD
  | contentD (s : String)
  | toolCallsD (tcs : List ToolCallDelta)
deriving DecidableEq, Repr

/-- Choice of a streamed chunk. -/
structure ChunkChoice where
  index : Nat
  delta : Delta
  finish_reason : Option String
deriving DecidableEq, Repr

/-- Streamed chat completion chunk object. -/
structure Chunk where
  id : String
  object : String
  created : Nat
  model : String
  choices : List ChunkChoice
deriving DecidableEq, Repr

/-- makeChunk, src/unnamed/part_001 lines 356 to 362: every chunk carries
the namespaced model and a single choice with index zero. -/
def makeChunk (now : Nat) (modelName : String) (delta : Delta)
    (finish : Option String) : Chunk :=
  { id := "chatcmpl-" ++ toString now
    object := "chat.completion.chunk"
    created := now / 1000
    model := "clawrouter/" ++ modelName
    choices := [{ index := 0, delta := delta, finish_reason := finish }] }

/-- Per-stream translator state of forwardToAnthropic, src/unnamed/part_001
lines 350 to 354. -/
structure TransState where
  insideThinking : Bool
  currentBlockType : Option String
  currentToolIndex : Int
  stopReason : Option String
deriving DecidableEq, Repr

/-- Initial translator state (insideThinking false, no block, tool index
minus one, no stop reason). -/
def initTrans : TransState :=
  { insideThinking := false, currentBlockType := none
    currentToolIndex := -1, stopReason := none }

/-- Parsed upstream SSE event, carrying exactly the payload fields the
translator destructures; optional fields mirror possibly-absent JSON
properties. -/
inductive StreamEvent
  | contentBlockStart (blockType : Option String) (id : Option String)
      (name : Option String)
  | contentBlockStop
  | contentBlockDelta (deltaType : Option String) (text : Option String)
      (partialJson : Option String)
  | messageDelta (stopReason : Option String)
  | messageStop
  | otherEvent (t : String)
deriving DecidableEq, Repr

/-- One step of the streaming translator of forwardToAnthropic,
src/unnamed/part_001 lines 379 to 442: the state update and the chunks
written for one parsed event.  Thinking deltas are suppressed; a tool_use
block start emits the id and name chunk; input_json_delta events inside a
tool_use block stream the argument fragments; message_stop emits the final
finish chunk.  The older copy src/src/provider.ts lines 262 to 312 is the
same machine without the tool_use branches. -/
def stepEvent (now : Nat) (modelName : String) (s : TransState) :
    StreamEvent → TransState × List Chunk
  | StreamEvent.contentBlockStart bt id name =>
    if bt = some "thinking" then
      ({ s with insideThinking := true, currentBlockType := some "thinking" },
       [])
    else if bt = some "tool_use" then
      let idx := s.currentToolIndex + 1
      ({ s with insideThinking := false, currentBlockType := some "tool_use"
                currentToolIndex := idx },
       [makeChunk now modelName
         (Delta.toolCallsD
           [{ index := idx, id := id, typeF := some "function"
              function := { name := name, arguments := some "" } }])
         none])
    else
      ({ s with insideThinking := false
                currentBlockType := some (bt.getD "text") }, [])
  | StreamEvent.contentBlockStop =>
    ({ s with insideThinking := false, currentBlockType := none }, [])
  | StreamEvent.contentBlockDelta dt text pj =>
    if s.insideThinking then (s, [])
    else if s.currentBlockType = some "tool_use" &&
        dt = some "input_json_delta" then
      (s, [makeChunk now modelName
        (Delta.toolCallsD
          [{ index := s.currentToolIndex, id := none, typeF := none
             function := { name := none, arguments := some (pj.getD "") } }])
        none])
    else
      match text with
      | some t =>
        if t ≠ "" then (s, [makeChunk now modelName (Delta.contentD t) none])
        else (s, [])
      | none => (s, [])
  | StreamEvent.messageDelta sr => ({ s with stopReason := sr }, [])
  | StreamEvent.messageStop =>
    (s, [makeChunk now modelName Delta.emptyD
      (some (if s.stopReason = some "tool_use" then "tool_calls" else "stop"))])
  | StreamEvent.otherEvent _ => (s, [])

/-- All chunks the translator writes for an event list, in order. -/
def runChunks (now : Nat) (modelName : String) (s : TransState) :
    List StreamEvent → List Chunk
  | [] => []
  | e :: es =>
    let p := stepEvent now modelName s e
    p.2 ++ runChunks now modelName p.1 es

/-- Trace of the translator: for each event, the state in which it was
processed and the chunks it emitted. -/
def runTrace (now : Nat) (modelName : String) (s : TransState) :
    List StreamEvent → List (StreamEvent × TransState × List Chunk)
  | [] => []
  | e :: es =>
    let p := stepEvent now modelName s e
    (e, s, p.2) :: runTrace now modelName p.1 es

/-- Is an event a content_block_delta event. -/
def isContentDelta : StreamEvent → Bool
  | StreamEvent.contentBlockDelta _ _ _ => true
  | _ => false

/-- Well-formedness of an emitted chunk per claim C10: the object tag and a
single choice with index zero. -/
def chunkWellFormed (c : Chunk) : Bool :=
  c.object == "chat.completion.chunk" &&
    match c.choices with
    | [ch] => ch.index == 0
    | _ => false

/-- Model rewrite of the OpenAI pass-through, src/unnamed/part_001
lines 504 and 541 (identically src/src/provider.ts lines 375 and 413):
if (data.model) data.model = the namespaced name; a missing or falsy model
field is left untouched. -/
def rewriteModelField (modelName : String) (data : Json) : Json :=
  match data with
  | Json.obj fields =>
    match jsLookup "model" fields with
    | some v =>
      if jsTruthy v then
        Json.obj (setKey fields "model" (Json.str ("clawrouter/" ++ modelName)))
      else data
    | none => data
  | _ => data

/-! # Part 5: request lifecycle (server, src/src/logger.ts lines 551 to 670)
and the per-attempt timeout model -/

/-- One write the server makes to the client response body: a translated
chunk line, the literal DONE line, the SSE error event line of the handler
tail, or the JSON error body of sendError. -/
inductive ClientWrite
  | chunkW (c : Chunk)
  | doneW
  | errW (msg : String)
  | jsonErr (status : Nat) (msg : String)
deriving DecidableEq, Repr

/-- Client response state: whether writeHead ran, whether end ran, and the
body writes in order. -/
structure ResState where
  headersSent : Bool
  ended : Bool
  log : List ClientWrite
deriving DecidableEq, Repr

/-- Response state before the first attempt. -/
def cleanRes : ResState := { headersSent := false, ended := false, log := [] }

/-- Kind of a thrown attempt error: TimeoutError or any other Error
(the server distinguishes them with instanceof at src/src/logger.ts
line 651). -/
inductive ErrK
  | timeoutE (msg : String)
  | genE (msg : String)
deriving DecidableEq, Repr

/-- Is the error a TimeoutError. -/
def isTimeoutE : ErrK → Bool
  | ErrK.timeoutE _ => true
  | ErrK.genE _ => false

/-- Message of an error. -/
def errMsg : ErrK → String
  | ErrK.timeoutE m => m
  | ErrK.genE m => m

/-- Translator pass over the received SSE lines: a parsed event or none for
a line JSON.parse rejected, which the translator silently skips
(src/unnamed/part_001 lines 443 to 445). -/
def runLines (now : Nat) (modelName : String) (s : TransState) :
    List (Option StreamEvent) → List Chunk
  | [] => []
  | none :: ls => runLines now modelName s ls
  | some e :: ls =>
    let p := stepEvent now modelName s e
    p.2 ++ runLines now modelName p.1 ls

/-- Observable behavior of one forwardRequest attempt, as the handler sees
it through the response state and the thrown error:
preFail is any throw before the response is touched (failed fetch,
non-2xx upstream, a timeout before headers); noBody is the streaming throw
after writeHead when the upstream response has no body
(src/unnamed/part_001 line 346); nonStreamOk is a non-streaming success
(writeHead then end); streamRun is the streaming path, which sends headers,
writes the translated chunks of the lines read before the stream ended or
failed, and whose finally block always writes the DONE line and ends the
response (src/unnamed/part_001 lines 448 to 451, src/src/provider.ts
lines 318 to 321), rethrowing the read error when there was one. -/
inductive AttemptBehavior
  | preFail (e : ErrK)
  | noBody
  | nonStreamOk
  | streamRun (lines : List (Option StreamEvent)) (readErr : Option ErrK)

/-- Effect of one attempt on the response state, and the error it threw. -/
def runAttempt (now : Nat) (modelName : String) :
    AttemptBehavior → ResState → ResState × Option ErrK
  | AttemptBehavior.preFail e, res => (res, some e)
  | AttemptBehavior.noBody, res =>
    ({ res with headersSent := true }, some (ErrK.genE "No response body"))
  | AttemptBehavior.nonStreamOk, res =>
    ({ res with headersSent := true, ended := true }, none)
  | AttemptBehavior.streamRun lines readErr, res =>
    ({ headersSent := true, ended := true
       log := res.log ++
         (runLines now modelName initTrans lines).map ClientWrite.chunkW ++
         [ClientWrite.doneW] },
     readErr)

/-- Result of the attempt loop: the response state, whether some attempt
succeeded, the timeout counter increments, the number of attempts made, and
the last error message. -/
structure ChainOut where
  res : ResState
  ok : Bool
  timeouts : Nat
  attempts : Nat
  lastError : String
deriving DecidableEq, Repr

/-- The for loop over modelsToTry of handleChatCompletions,
src/src/logger.ts lines 640 to 660: each attempt is forwarded; on success
the handler returns; on an error the timeout counter is bumped for a
TimeoutError and the loop breaks when response headers were already sent,
otherwise the next chain entry is tried. -/
def chainLoop (now : Nat) (modelName : String) :
    List AttemptBehavior → ResState → Nat → Nat → String → ChainOut
  | [], res, tmo, att, last =>
    { res := res, ok := false, timeouts := tmo, attempts := att
      lastError := last }
  | b :: bs, res, tmo, att, last =>
    match runAttempt now modelName b res with
    | (res', none) =>
      { res := res', ok := true, timeouts := tmo, attempts := att + 1
        lastError := last }
    | (res', some e) =>
      let tmo' := if isTimeoutE e then tmo + 1 else tmo
      if res'.headersSent then
        { res := res', ok := false, timeouts := tmo', attempts := att + 1
          lastError := errMsg e }
      else chainLoop now modelName bs res' tmo' (att + 1) (errMsg e)

/-- The error tail after the loop, src/src/logger.ts lines 662 to 669:
a 502 JSON error when headers were never sent; the SSE error event followed
by the DONE line when the response is still open; nothing when the response
was already ended. -/
def finishTail (msg : String) (res : ResState) : ResState :=
  if res.headersSent = false then
    { res with log := res.log ++ [ClientWrite.jsonErr 502 msg]
               headersSent := true, ended := true }
  else if res.ended = false then
    { res with log := res.log ++ [ClientWrite.errW msg, ClientWrite.doneW]
               ended := true }
  else res

/-- handleChatCompletions from the chain loop on: run the attempts from a
clean response state and, when none succeeded, apply the error tail. -/
def handleChat (now : Nat) (modelName : String)
    (bs : List AttemptBehavior) : ChainOut :=
  let o := chainLoop now modelName bs cleanRes 0 0 ""
  if o.ok then o else { o with res := finishTail o.lastError o.res }

/-- Modelled from the spec: the per-tier attempt deadlines of section 4.7
(SIMPLE 30s, MEDIUM 60s, COMPLEX 120s, REASONING 120s, in milliseconds).
The provider revision implementing them is missing from src/: the server
imports TimeoutError from provider.js (src/src/logger.ts line 400) and the
CHANGELOG 1.2.0 entry documents AbortSignal timeouts per tier, but neither
provider copy in the snapshot contains that code. -/
def tierTimeoutMs : Tier → Nat
  | Tier.SIMPLE => 30000
  | Tier.MEDIUM => 60000
  | Tier.COMPLEX => 120000
  | Tier.REASONING => 120000

/-- Modelled from the spec: the 30 second streaming stall limit of
section 4.7. -/
def stallTimeoutMs : Nat := 30000

/-- Modelled from the spec: scan of the upstream byte arrival times
relative to the previous arrival (starting at stream start time zero);
returns the time at which the stall timer fired, or none when every gap
stayed under the limit. -/
def firstStallGap (last : Nat) : List Nat → Option Nat
  | [] => none
  | a :: rest =>
    if stallTimeoutMs ≤ a - last then some (last + stallTimeoutMs)
    else firstStallGap a rest

/-- Does some adjacent pair of arrival times (with the stream start at time
zero) leave a gap of at least the stall limit. -/
def hasStallPair : Nat → List Nat → Bool
  | _, [] => false
  | last, a :: rest =>
    (stallTimeoutMs ≤ a - last) || hasStallPair a rest

/-- Modelled from the spec: an attempt times out when it outlives its tier
deadline, or, in streaming mode, when the stall timer fires mid-stream. -/
def attemptTimesOut (tier : Tier) (streamMode : Bool) (arrivals : List Nat)
    (finishTime : Nat) : Bool :=
  decide (tierTimeoutMs tier < finishTime) ||
    (streamMode && (firstStallGap 0 arrivals).isSome)

/-! # Theorems -/

/-- Helper: looking a key up right after assigning it yields the assigned
value. -/
theorem jsLookup_setKey (l : List (String × Json)) (k : String) (v : Json) :
    jsLookup k (setKey l k v) = some v := by
  induction l with
  | nil => simp [setKey, jsLookup]
  | cons p rest ih =>
    obtain ⟨k2, w⟩ := p
    by_cases h : k2 = k
    · simp [setKey, jsLookup, h]
    · simp [setKey, jsLookup, h, ih]

/-- C1: the claim says the structured-output tier upgrade is decided by the
user prompt only.  The router the server imports
(src/src/router/index.ts line 64) tests the regex against the system
prompt instead: a json-requesting user prompt with no system prompt gets no
upgrade, while a json-mentioning system prompt with a plain user prompt
does get one.  The repository's own CHANGELOG 1.2.0 entry (structured
output detection now checks user prompt only) and its newer router copy
src/unnamed/part_002 line 67 (embedded as routeTierV2, which behaves as the
claim states on the same inputs) show the claim matches the documented
intent and the shipped file is the slip. -/
theorem C1_structured_output_checks_system_prompt :
    routeTier (some Tier.SIMPLE) "Reply with json please" none
        defaultOverrides = Tier.SIMPLE
  ∧ routeTier (some Tier.SIMPLE) "hello" (some "You talk json")
        defaultOverrides = Tier.MEDIUM
  ∧ routeTierV2 (some Tier.SIMPLE) "Reply with json please" none
        defaultOverrides = Tier.MEDIUM
  ∧ routeTierV2 (some Tier.SIMPLE) "hello" (some "You talk json")
        defaultOverrides = Tier.SIMPLE :=
  ⟨rfl, rfl, rfl, rfl⟩

/-- C2 counterexample: the namespace token the code prepends to the
outgoing model field is clawrouter, not freerouter, on both the
non-streaming translation and the streamed chunks. -/
theorem C2_model_namespace_counterexample :
    (buildOpenAIResponse 0 "claude-opus-4-6"
        [ContentBlock.textB (some "hi")] none none).model
      = "clawrouter/claude-opus-4-6"
  ∧ (buildOpenAIResponse 0 "claude-opus-4-6"
        [ContentBlock.textB (some "hi")] none none).model
      ≠ "freerouter/claude-opus-4-6"
  ∧ (makeChunk 0 "claude-opus-4-6" (Delta.contentD "hi") none).model
      = "clawrouter/claude-opus-4-6"
  ∧ (makeChunk 0 "claude-opus-4-6" (Delta.contentD "hi") none).model
      ≠ "freerouter/claude-opus-4-6" :=
  ⟨rfl, by decide, rfl, by decide⟩

/-- C2 amended: every outgoing response and chunk carries the namespaced
model string clawrouter followed by the upstream model name: always on the
Anthropic translation path (non-streaming response and every streamed
chunk), and on the OpenAI pass-through path whenever the upstream body or
chunk carries a truthy model field (a missing or falsy one is left
untouched). -/
theorem C2_model_namespace_amended :
    (∀ now modelName content usage stop,
      (buildOpenAIResponse now modelName content usage stop).model
        = "clawrouter/" ++ modelName)
  ∧ (∀ now modelName d f,
      (makeChunk now modelName d f).model = "clawrouter/" ++ modelName)
  ∧ (∀ modelName fields v, jsLookup "model" fields = some v →
      jsTruthy v = true →
      getField (rewriteModelField modelName (Json.obj fields)) "model"
        = some (Json.str ("clawrouter/" ++ modelName))) := by
  refine ⟨fun _ _ _ _ _ => rfl, fun _ _ _ _ => rfl, ?_⟩
  intro modelName fields v hl ht
  simp [rewriteModelField, getField, hl, ht, jsLookup_setKey]

/-- C2 witness: the amended rewrite law evaluated on a concrete
pass-through chunk body. -/
theorem C2_model_namespace_witness :
    getField
        (rewriteModelField "kimi-for-coding"
          (Json.obj [("model", Json.str "kimi-orig")])) "model"
      = some (Json.str "clawrouter/kimi-for-coding") :=
  C2_model_namespace_amended.2.2 "kimi-for-coding"
    [("model", Json.str "kimi-orig")] (Json.str "kimi-orig") rfl rfl

/-- C3 counterexample: reloading over an active snapshot with port 9999
while the file fails to parse publishes the built-in defaults, not the
previously active snapshot. -/
theorem C3_reload_counterexample :
    reloadConfigModel
        (some (loadConfigModel
          (some (some (Json.obj [("port", Json.num 9999)])))))
        (some none)
      = defaultConfigJson
  ∧ getField
        (loadConfigModel (some (some (Json.obj [("port", Json.num 9999)]))))
        "port" = some (Json.num 9999)
  ∧ getField defaultConfigJson "port" = some (Json.num 18800)
  ∧ loadConfigModel (some (some (Json.obj [("port", Json.num 9999)])))
      ≠ defaultConfigJson := by
  refine ⟨rfl, rfl, rfl, ?_⟩
  intro h
  have h1 : getField
      (loadConfigModel (some (some (Json.obj [("port", Json.num 9999)]))))
      "port" = some (Json.num 9999) := rfl
  rw [h] at h1
  have h2 : getField defaultConfigJson "port" = some (Json.num 18800) := rfl
  rw [h2] at h1
  injection h1 with h3
  injection h3 with h4
  exact absurd h4 (by decide)

/-- C3 amended: a reload never consults the previously active snapshot; on
a missing file or a parse error it publishes the built-in defaults, and on
a successful parse it publishes the file deep-merged over the defaults with
no further validation of tiers or providers. -/
theorem C3_reload_amended :
    (∀ prev prev2 file,
      reloadConfigModel prev file = reloadConfigModel prev2 file)
  ∧ (∀ prev, reloadConfigModel prev (some none) = defaultConfigJson)
  ∧ (∀ prev, reloadConfigModel prev none = defaultConfigJson)
  ∧ (∀ prev fc, reloadConfigModel prev (some (some fc))
      = deepMergeModel defaultConfigJson fc) :=
  ⟨fun _ _ _ => rfl, fun _ => rfl, fun _ => rfl, fun _ _ => rfl⟩

/-- Helper: every chunk makeChunk builds is well formed. -/
theorem makeChunk_wf (now : Nat) (m : String) (d : Delta) (f : Option String) :
    chunkWellFormed (makeChunk now m d f) = true := rfl

/-- Helper: every chunk one translator step emits is well formed. -/
theorem stepEvent_wf (now : Nat) (modelName : String) (s : TransState)
    (e : StreamEvent) :
    ((stepEvent now modelName s e).2).all chunkWellFormed = true := by
  cases e with
  | contentBlockStart bt id name =>
    simp only [stepEvent]
    split_ifs <;> simp [makeChunk_wf]
  | contentBlockStop => rfl
  | contentBlockDelta dt text pj =>
    simp only [stepEvent]
    split_ifs <;> try rfl
    cases text with
    | none => rfl
    | some t =>
      by_cases h : t = "" <;> simp [h, makeChunk_wf]
  | messageDelta sr => rfl
  | messageStop =>
    simp only [stepEvent, List.all_cons, List.all_nil, Bool.and_true]
    exact makeChunk_wf _ _ _ _
  | otherEvent t => rfl

/-- C10: every chunk the Anthropic stream translator writes has object
equal to the chat completion chunk tag and exactly one choice whose index
is zero, on text chunks, tool-call chunks and the final finish chunk alike
(parallel tool calls differ only in the index inside delta.tool_calls). -/
theorem C10_chunk_shape (now : Nat) (modelName : String) (s : TransState)
    (es : List StreamEvent) :
    (runChunks now modelName s es).all chunkWellFormed = true := by
  induction es generalizing s with
  | nil => rfl
  | cons e es ih =>
    rw [runChunks, List.all_append, Bool.and_eq_true]
    exact ⟨stepEvent_wf now modelName s e, ih _⟩

/-- C5: at no point of a stream does a content_block_delta event processed
while the translator is inside a thinking content block emit anything to
the client: its chunk list in the trace is empty, so no upstream thinking
text ever reaches a client delta.content. -/
theorem C5_thinking_never_emitted (now : Nat) (modelName : String)
    (s0 : TransState) (es : List StreamEvent) (e : StreamEvent)
    (sb : TransState) (out : List Chunk)
    (hmem : (e, sb, out) ∈ runTrace now modelName s0 es)
    (hth : sb.insideThinking = true)
    (hdelta : isContentDelta e = true) : out = [] := by
  revert hmem
  induction es generalizing s0 with
  | nil => intro hmem; simp [runTrace] at hmem
  | cons e2 es ih =>
    intro hmem
    rw [runTrace, List.mem_cons] at hmem
    rcases hmem with heq | hmem
    · simp only [Prod.mk.injEq] at heq
      obtain ⟨h1, h2, h3⟩ := heq
      subst h1; subst h2; subst h3
      cases e <;> simp_all [stepEvent, isContentDelta]
    · exact ih _ hmem

/-- C5 witness: a concrete stream opening a thinking block and then
receiving a text delta, evaluated through the suppression theorem. -/
theorem C5_thinking_witness :
    (StreamEvent.contentBlockDelta (some "text_delta") (some "secret") none,
      ({ insideThinking := true, currentBlockType := some "thinking"
         currentToolIndex := -1, stopReason := none } : TransState),
      ([] : List Chunk)) ∈
      runTrace 0 "claude-opus-4-6" initTrans
        [StreamEvent.contentBlockStart (some "thinking") none none,
         StreamEvent.contentBlockDelta (some "text_delta") (some "secret")
           none] ∧
    ([] : List Chunk) = [] :=
  ⟨by decide,
   C5_thinking_never_emitted 0 "claude-opus-4-6" initTrans
     [StreamEvent.contentBlockStart (some "thinking") none none,
      StreamEvent.contentBlockDelta (some "text_delta") (some "secret") none]
     (StreamEvent.contentBlockDelta (some "text_delta") (some "secret") none)
     { insideThinking := true, currentBlockType := some "thinking"
       currentToolIndex := -1, stopReason := none }
     [] (by decide) rfl rfl⟩

/-- The set of tool_choice values the claim C9 lists as having a dedicated
translation: the strings none, auto and required, undefined, and an object
carrying a function name. -/
def toolChoiceListed (tc : JsVal) : Bool :=
  tc == JsVal.strv "none" || tc == JsVal.strv "auto" ||
    tc == JsVal.strv "required" || tc == JsVal.undef ||
    (match tc with
     | JsVal.objv (some (some _)) => true
     | _ => false)

/-- C9: the tool_choice translation is total and defaults to auto: every
value outside the listed set (null, numbers, booleans, arrays, other
strings, objects without a function name) is translated to the auto
choice, and no value makes the translation fail. -/
theorem C9_tool_choice_defaults_auto (tc : JsVal)
    (h : toolChoiceListed tc = false) :
    convertToolChoiceToAnthropic tc = ⟨"auto", none⟩ := by
  cases tc <;> simp_all [toolChoiceListed, convertToolChoiceToAnthropic]
  case objv fn =>
    rcases fn with _ | ⟨_ | n⟩ <;> simp_all

/-- C9 witness: the translation evaluated on an arbitrary unlisted
string. -/
theorem C9_tool_choice_witness :
    toolChoiceListed (JsVal.strv "weird") = false ∧
    convertToolChoiceToAnthropic (JsVal.strv "weird") = ⟨"auto", none⟩ :=
  ⟨by decide, C9_tool_choice_defaults_auto (JsVal.strv "weird") (by decide)⟩

/-- C6 counterexample: a tool call whose arguments string is the JSON text
null parses as JSON, yet the round trip does not preserve the parsed
value: the request-side conversion stores the JSON null as the tool_use
input, and the response-side conversion replaces a null input by the empty
object before stringifying, so the round-tripped arguments parse to the
empty object instead of null. -/
theorem C6_roundtrip_null_counterexample :
    jsonParseModel "null" = some Json.null
  ∧ convertMessagesToAnthropic
      [{ role := "assistant", content := MsgContent.nullC
         tool_calls := [⟨"call_1", "function", ⟨"get_weather", "null"⟩⟩]
         tool_call_id := none }]
      = ("", [⟨"assistant", AContent.blocksC
          [ContentBlock.toolUse (some "call_1") (some "get_weather")
            (some Json.null)]⟩])
  ∧ contentToToolCalls 0
      [ContentBlock.toolUse (some "call_1") (some "get_weather")
        (some Json.null)]
      = [⟨"call_1", "function", ⟨"get_weather", "\x7b\x7d"⟩⟩]
  ∧ jsonParseModel "\x7b\x7d" = some (Json.obj [])
  ∧ Json.obj [] ≠ Json.null :=
  ⟨rfl, rfl, rfl, rfl, fun h => Json.noConfusion h⟩

/-- C6 amended: for every OpenAI tool_call whose arguments string parses to
a JSON value other than JSON null, converting it to an Anthropic tool_use
block and converting that block back preserves the id, preserves the name,
and yields an arguments string that parses back to the original value (the
JSON-null case is the counterexample: the response side replaces a null
input by the empty object).  The parse and stringify hypotheses state, at
the two strings involved, the inverse law of the runtime JSON primitives
the code calls. -/
theorem C6_roundtrip_amended (id name args : String) (v : Json) (now : Nat)
    (hp : jsonParseModel args = some v)
    (hnn : v ≠ Json.null)
    (hs : jsonParseModel (jsonStringifyModel v) = some v) :
    convertMessagesToAnthropic
      [{ role := "assistant", content := MsgContent.nullC
         tool_calls := [⟨id, "function", ⟨name, args⟩⟩]
         tool_call_id := none }]
      = ("", [⟨"assistant", AContent.blocksC
          [ContentBlock.toolUse (some id) (some name) (some v)]⟩])
  ∧ contentToToolCalls now
      [ContentBlock.toolUse (some id) (some name) (some v)]
      = [⟨id, "function", ⟨name, jsonStringifyModel v⟩⟩]
  ∧ jsonParseModel (jsonStringifyModel v) = some v := by
  have hj : jsNullish (some v) = v := by
    cases v <;> simp_all [jsNullish]
  refine ⟨?_, ?_, hs⟩
  · simp [convertMessagesToAnthropic, convertLoop, contentTruthy, hp]
  · simp [contentToToolCalls, hj]

/-- C6 witness: the amended round trip evaluated on a concrete weather
tool call. -/
theorem C6_roundtrip_witness :
    jsonParseModel "\x7b\"city\":\"Paris\"\x7d"
      = some (Json.obj [("city", Json.str "Paris")])
  ∧ (convertMessagesToAnthropic
      [{ role := "assistant", content := MsgContent.nullC
         tool_calls := [⟨"call_1", "function",
           ⟨"get_weather", "\x7b\"city\":\"Paris\"\x7d"⟩⟩]
         tool_call_id := none }]
      = ("", [⟨"assistant", AContent.blocksC
          [ContentBlock.toolUse (some "call_1") (some "get_weather")
            (some (Json.obj [("city", Json.str "Paris")]))]⟩])
  ∧ contentToToolCalls 7
      [ContentBlock.toolUse (some "call_1") (some "get_weather")
        (some (Json.obj [("city", Json.str "Paris")]))]
      = [⟨"call_1", "function", ⟨"get_weather",
          jsonStringifyModel (Json.obj [("city", Json.str "Paris")])⟩⟩]
  ∧ jsonParseModel
      (jsonStringifyModel (Json.obj [("city", Json.str "Paris")]))
      = some (Json.obj [("city", Json.str "Paris")])) :=
  ⟨rfl,
   C6_roundtrip_amended "call_1" "get_weather" "\x7b\"city\":\"Paris\"\x7d"
     (Json.obj [("city", Json.str "Paris")]) 7 rfl
     (fun h => Json.noConfusion h) rfl⟩

/-- Helper: a successful attempt leaves the response ended. -/
theorem runAttempt_ok_ended (now : Nat) (m : String) (b : AttemptBehavior)
    (res : ResState) (h : (runAttempt now m b res).2 = none) :
    (runAttempt now m b res).1.ended = true := by
  cases b <;> simp_all [runAttempt]

/-- Helper: the attempt counter of the loop never drops below its starting
value. -/
theorem chainLoop_attempts_ge (now : Nat) (m : String) :
    ∀ (bs : List AttemptBehavior) (res : ResState) (tmo att : Nat)
      (last : String), att ≤ (chainLoop now m bs res tmo att last).attempts := by
  intro bs
  induction bs with
  | nil => intro res tmo att last; simp [chainLoop]
  | cons b bs ih =>
    intro res tmo att last
    rcases hr : runAttempt now m b res with ⟨res1, err⟩
    cases err with
    | none => simp [chainLoop, hr]
    | some e =>
      simp only [chainLoop, hr]
      split
      · simp
      · exact le_trans (Nat.le_succ att) (ih res1 _ _ _)

/-- Helper: with one attempt already made and a nonempty remaining chain,
the loop makes at least a second attempt. -/
theorem chainLoop_cons_attempts_ge_two (now : Nat) (m : String)
    (b : AttemptBehavior) (bs : List AttemptBehavior) (res : ResState)
    (tmo : Nat) (last : String) :
    2 ≤ (chainLoop now m (b :: bs) res tmo 1 last).attempts := by
  rcases hr : runAttempt now m b res with ⟨res1, err⟩
  cases err with
  | none => simp [chainLoop, hr]
  | some e =>
    simp only [chainLoop, hr]
    split
    · simp
    · exact chainLoop_attempts_ge now m bs res1 _ 2 _

/-- Helper: when the loop reports success the response was ended by the
successful attempt. -/
theorem chainLoop_ok_ended (now : Nat) (m : String) :
    ∀ (bs : List AttemptBehavior) (res : ResState) (tmo att : Nat)
      (last : String), (chainLoop now m bs res tmo att last).ok = true →
      (chainLoop now m bs res tmo att last).res.ended = true := by
  intro bs
  induction bs with
  | nil => intro res tmo att last h; simp [chainLoop] at h
  | cons b bs ih =>
    intro res tmo att last h
    rcases hr : runAttempt now m b res with ⟨res1, err⟩
    cases err with
    | none =>
      simp only [chainLoop, hr] at h ⊢
      have := runAttempt_ok_ended now m b res (by rw [hr])
      rw [hr] at this
      exact this
    | some e =>
      simp only [chainLoop, hr] at h ⊢
      split at h
      · simp at h
      · rename_i hh
        simp only [if_neg hh]
        exact ih res1 _ _ _ h

/-- Helper: the error tail always leaves the response ended. -/
theorem finishTail_ended (msg : String) (res : ResState) :
    (finishTail msg res).ended = true := by
  simp only [finishTail]
  split_ifs with h1 h2
  · rfl
  · rfl
  · cases he : res.ended
    · simp [he] at h2
    · rfl

/-- Helper: the error tail never changes the attempt count. -/
theorem handleChat_attempts (now : Nat) (m : String)
    (bs : List AttemptBehavior) :
    (handleChat now m bs).attempts
      = (chainLoop now m bs cleanRes 0 0 "").attempts := by
  simp only [handleChat]
  split <;> rfl

/-- C4 counterexample: an attempt that starts streaming (headers sent, one
chunk written) and then fails mid-stream is closed by the provider finally
block with the DONE line, so the handler tail writes nothing: the claimed
final SSE error event never appears in the client log even though the
attempt failed after headers were sent. -/
theorem C4_fallback_counterexample :
    (runAttempt 0 "m"
      (AttemptBehavior.streamRun
        [some (StreamEvent.contentBlockDelta (some "text_delta")
          (some "hello") none)]
        (some (ErrK.genE "upstream reset"))) cleanRes).2
      = some (ErrK.genE "upstream reset")
  ∧ (runAttempt 0 "m"
      (AttemptBehavior.streamRun
        [some (StreamEvent.contentBlockDelta (some "text_delta")
          (some "hello") none)]
        (some (ErrK.genE "upstream reset"))) cleanRes).1.headersSent = true
  ∧ (handleChat 0 "m"
      [AttemptBehavior.streamRun
        [some (StreamEvent.contentBlockDelta (some "text_delta")
          (some "hello") none)]
        (some (ErrK.genE "upstream reset"))]).res.log =
      [ClientWrite.chunkW (makeChunk 0 "m" (Delta.contentD "hello") none),
       ClientWrite.doneW]
  ∧ (handleChat 0 "m"
      [AttemptBehavior.streamRun
        [some (StreamEvent.contentBlockDelta (some "text_delta")
          (some "hello") none)]
        (some (ErrK.genE "upstream reset"))]).res.log.any (fun w =>
      match w with
      | ClientWrite.errW _ => true
      | _ => false) = false :=
  ⟨rfl, rfl, rfl, rfl⟩

/-- C4 amended: the response is always closed; a second chain entry is
attempted exactly when the first attempt failed before response headers
(hence before any client bytes) and further entries remain; and on a
failure after headers were sent no fallback happens and the handler
appends the SSE error event followed by the DONE line only when the
failing attempt left the response open (the streaming path always closes
it with the DONE line itself, so a mid-stream failure ends the response
with DONE and no error event). -/
theorem C4_fallback_amended (now : Nat) (modelName : String)
    (b : AttemptBehavior) (bs : List AttemptBehavior) :
    ((handleChat now modelName (b :: bs)).res.ended = true)
  ∧ ((handleChat now modelName (b :: bs)).attempts > 1 ↔
      ((runAttempt now modelName b cleanRes).2.isSome = true
        ∧ (runAttempt now modelName b cleanRes).1.headersSent = false
        ∧ bs ≠ []))
  ∧ (∀ e, (runAttempt now modelName b cleanRes).2 = some e →
      (runAttempt now modelName b cleanRes).1.headersSent = true →
      (handleChat now modelName (b :: bs)).attempts = 1
      ∧ (handleChat now modelName (b :: bs)).res.log =
          (runAttempt now modelName b cleanRes).1.log ++
            (if (runAttempt now modelName b cleanRes).1.ended then []
             else [ClientWrite.errW (errMsg e), ClientWrite.doneW])) := by
  refine ⟨?_, ?_, ?_⟩
  · simp only [handleChat]
    split
    · rename_i h
      exact chainLoop_ok_ended now modelName (b :: bs) cleanRes 0 0 "" h
    · exact finishTail_ended _ _
  · rw [handleChat_attempts]
    rcases hr : runAttempt now modelName b cleanRes with ⟨res1, err⟩
    cases err with
    | none =>
      simp only [chainLoop, hr]
      simp
    | some e =>
      simp only [chainLoop, hr]
      by_cases hh : res1.headersSent = true
      · simp only [if_pos hh]
        simp [hh]
      · have hh2 : res1.headersSent = false := by
          cases hhe : res1.headersSent
          · rfl
          · exact absurd hhe hh
        simp only [if_neg (by simp [hh2] : ¬ res1.headersSent = true)]
        cases bs with
        | nil =>
          simp [chainLoop, hh2]
        | cons b2 bs2 =>
          constructor
          · intro _
            exact ⟨rfl, hh2, by simp⟩
          · intro _
            have h2 := chainLoop_cons_attempts_ge_two now modelName b2 bs2 res1
              (if isTimeoutE e then 0 + 1 else 0) (errMsg e)
            have h3 : (0 : Nat) + 1 = 1 := rfl
            rw [h3]
            exact h2
  · intro e he hh
    rcases hr : runAttempt now modelName b cleanRes with ⟨res1, err⟩
    rw [hr] at he hh
    simp only at he hh
    subst he
    simp only [handleChat, chainLoop, hr, hh, if_pos]
    constructor
    · simp
    · cases hee : res1.ended <;> simp [finishTail, hh, hee]

/-- C4 witness: the amended tail behavior evaluated on a one-entry chain
whose attempt fails after headers with the response still open. -/
theorem C4_fallback_witness :
    (handleChat 0 "m" [AttemptBehavior.noBody]).attempts = 1
  ∧ (handleChat 0 "m" [AttemptBehavior.noBody]).res.log =
      (runAttempt 0 "m" AttemptBehavior.noBody cleanRes).1.log ++
        (if (runAttempt 0 "m" AttemptBehavior.noBody cleanRes).1.ended then []
         else [ClientWrite.errW (errMsg (ErrK.genE "No response body")),
               ClientWrite.doneW]) :=
  (C4_fallback_amended 0 "m" AttemptBehavior.noBody []).2.2
    (ErrK.genE "No response body") rfl rfl

/-- The character list does not start with JavaScript whitespace. -/
def noLeadWs : List Char → Bool
  | [] => true
  | c :: _ => !(isJsWs c)

/-- The character list does not start with a pattern 2 separator
character. -/
def noLeadSep : List Char → Bool
  | [] => true
  | c :: _ => !(isSepChar c)

/-- The character list does not end with JavaScript whitespace. -/
def noTrailWs (l : List Char) : Bool := noLeadWs l.reverse

/-- Helper: takeWhile and dropWhile split an append at the boundary when
the left part satisfies the predicate and the right part does not start
with it. -/
theorem takeWhile_append_all {p : Char → Bool} (xs ys : List Char)
    (hx : xs.all p = true)
    (hy : ∀ y, ys.head? = some y → p y = false) :
    (xs ++ ys).takeWhile p = xs ∧ (xs ++ ys).dropWhile p = ys := by
  induction xs with
  | nil =>
    cases ys with
    | nil => simp
    | cons y ys =>
      have := hy y rfl
      simp [List.takeWhile, List.dropWhile, this]
  | cons x xs ih =>
    simp only [List.all_cons, Bool.and_eq_true] at hx
    have := ih hx.2
    simp [List.takeWhile, List.dropWhile, hx.1, this.1, this.2]

/-- Helper: dropWhile is the identity when the head fails the predicate. -/
theorem dropWhile_of_head_false {p : Char → Bool} (l : List Char)
    (h : ∀ c, l.head? = some c → p c = false) : l.dropWhile p = l := by
  cases l with
  | nil => rfl
  | cons c rest =>
    have := h c rfl
    simp [List.dropWhile, this]

/-- Helper: takeWhile is empty when the head fails the predicate. -/
theorem takeWhile_nil_of_head_false {p : Char → Bool} (l : List Char)
    (h : ∀ c, l.head? = some c → p c = false) : l.takeWhile p = [] := by
  cases l with
  | nil => rfl
  | cons c rest =>
    have := h c rfl
    simp [List.takeWhile, this]

/-- Helper: head form of noLeadWs. -/
theorem noLeadWs_head {l : List Char} (h : noLeadWs l = true) :
    ∀ c, l.head? = some c → isJsWs c = false := by
  intro c hc
  cases l with
  | nil => simp at hc
  | cons d rest =>
    simp at hc
    subst hc
    simp [noLeadWs] at h
    simp [h]

/-- Helper: head form of noLeadSep. -/
theorem noLeadSep_head {l : List Char} (h : noLeadSep l = true) :
    ∀ c, l.head? = some c → isSepChar c = false := by
  intro c hc
  cases l with
  | nil => simp at hc
  | cons d rest =>
    simp at hc
    subst hc
    simp [noLeadSep] at h
    simp [h]

/-- Helper: the separator class contains the whitespace class. -/
theorem noLeadWs_of_noLeadSep {l : List Char} (h : noLeadSep l = true) :
    noLeadWs l = true := by
  cases l with
  | nil => rfl
  | cons c rest =>
    simp [noLeadSep, isSepChar] at h
    simp [noLeadWs, h.2]

/-- Helper: trim is the identity on a list with no surrounding
whitespace. -/
theorem trimL_fixed (l : List Char) (h1 : noLeadWs l = true)
    (h2 : noTrailWs l = true) : trimL l = l := by
  unfold trimL
  rw [dropWhile_of_head_false l (noLeadWs_head h1)]
  rw [dropWhile_of_head_false l.reverse (noLeadWs_head h2)]
  exact List.reverse_reverse l

/-- Helper: pattern 1 on a slash prompt captures the word and consumes the
separator whitespace greedily. -/
theorem matchSlash_form (w t : List Char) (hw : w ≠ [])
    (hl : w.all isAsciiLetterB = true) :
    matchSlash ('/' :: (w ++ ' ' :: t)) = some (w, t.dropWhile isJsWs) := by
  have h1 := takeWhile_append_all w (' ' :: t) hl
    (by intro y hy; simp at hy; subst hy; rfl)
  simp only [matchSlash, if_pos rfl]
  rw [h1.1, h1.2]
  simp only [if_neg hw]
  have h2 : (' ' :: t).takeWhile isJsWs = ' ' :: t.takeWhile isJsWs := rfl
  have h3 : (' ' :: t).dropWhile isJsWs = t.dropWhile isJsWs := rfl
  rw [h2, h3]
  simp

/-- Helper: pattern 2 fails when the prompt does not start with a
letter. -/
theorem matchWordMode_none_head {l : List Char} {c : Char} {rest : List Char}
    (he : l = c :: rest) (hc : isAsciiLetterB c = false) :
    matchWordMode l = none := by
  subst he
  simp [matchWordMode, List.takeWhile, hc]

/-- Helper: pattern 1 fails when the prompt does not start with a
slash. -/
theorem matchSlash_none_head {l : List Char} {c : Char} {rest : List Char}
    (he : l = c :: rest) (hc : c ≠ '/') :
    matchSlash l = none := by
  subst he
  simp [matchSlash, hc]

/-- Helper: pattern 3 fails when the prompt does not start with an open
bracket. -/
theorem matchBracket_none_head {l : List Char} {c : Char} {rest : List Char}
    (he : l = c :: rest) (hc : c ≠ '\x5b') :
    matchBracket l = none := by
  subst he
  simp [matchBracket, hc]

/-- Helper: pattern 2 on a word-mode prompt captures the word and consumes
the separator run greedily. -/
theorem matchWordMode_form (w t : List Char) (hw : w ≠ [])
    (hl : w.all isAsciiLetterB = true) :
    matchWordMode (w ++ (' ' :: 'm' :: 'o' :: 'd' :: 'e' :: ':' :: ' ' :: t))
      = some (w, t.dropWhile isSepChar) := by
  have h1 := takeWhile_append_all w
    (' ' :: 'm' :: 'o' :: 'd' :: 'e' :: ':' :: ' ' :: t) hl
    (by intro y hy; simp at hy; subst hy; rfl)
  simp only [matchWordMode]
  rw [h1.1, h1.2]
  simp only [if_neg hw]
  have h2 : (' ' :: 'm' :: 'o' :: 'd' :: 'e' :: ':' :: ' ' :: t).takeWhile isJsWs
      = [' '] := rfl
  have h3 : (' ' :: 'm' :: 'o' :: 'd' :: 'e' :: ':' :: ' ' :: t).dropWhile isJsWs
      = 'm' :: 'o' :: 'd' :: 'e' :: ':' :: ' ' :: t := rfl
  rw [h2, h3]
  have h4 : (':' :: ' ' :: t).takeWhile isSepChar
      = ':' :: ' ' :: t.takeWhile isSepChar := rfl
  have h5 : (':' :: ' ' :: t).dropWhile isSepChar = t.dropWhile isSepChar := rfl
  simp [h4, h5]

/-- Helper: pattern 3 on a bracket prompt captures the word and consumes
trailing whitespace greedily. -/
theorem matchBracket_form (w t : List Char) (hw : w ≠ [])
    (hl : w.all isAsciiLetterB = true) :
    matchBracket ('\x5b' :: (w ++ '\x5d' :: ' ' :: t))
      = some (w, t.dropWhile isJsWs) := by
  have h1 := takeWhile_append_all w ('\x5d' :: ' ' :: t) hl
    (by intro y hy; simp at hy; subst hy; rfl)
  simp only [matchBracket, if_pos rfl]
  rw [h1.1, h1.2]
  simp only [if_neg hw]
  have h3 : (' ' :: t).dropWhile isJsWs = t.dropWhile isJsWs := rfl
  simp [h3]

/-- Helper: the head of an all-letter word differs from any non-letter
character. -/
theorem headLetter_ne {w : List Char} {c : Char} {rest : List Char}
    (he : w = c :: rest) (hl : w.all isAsciiLetterB = true) {d : Char}
    (hd : isAsciiLetterB d = false) : c ≠ d := by
  subst he
  simp only [List.all_cons, Bool.and_eq_true] at hl
  intro h
  rw [h] at hl
  rw [hd] at hl
  exact Bool.noConfusion hl.1

/-- Helper: the character list of an append is the append of the character
lists. -/
theorem data_append (a b : String) : (a ++ b).data = a.data ++ b.data := rfl

/-- Helper: rebuilding a string from its character list is the
identity. -/
theorem string_mk_data (s : String) : String.mk s.data = s := rfl

/-- Helper: detectModeOverride on the three separator forms of a listed
word with a clean text returns the mapped tier and the text. -/
theorem detect_forms (w tier t : String) (hw : w.data ≠ [])
    (hl : w.data.all isAsciiLetterB = true)
    (hmapLower : modeMapL (String.mk (toLowerL w.data)) = some tier)
    (ht : noLeadSep t.data = true) (ht2 : noTrailWs t.data = true) :
    detectModeOverride ("/" ++ w ++ " " ++ t) = some (tier, t)
    ∧ detectModeOverride (w ++ " mode: " ++ t) = some (tier, t)
    ∧ detectModeOverride ("\x5b" ++ w ++ "\x5d " ++ t) = some (tier, t) := by
  have htws : noLeadWs t.data = true := noLeadWs_of_noLeadSep ht
  have hdrop : t.data.dropWhile isJsWs = t.data :=
    dropWhile_of_head_false t.data (noLeadWs_head htws)
  have hdropSep : t.data.dropWhile isSepChar = t.data :=
    dropWhile_of_head_false t.data (noLeadSep_head ht)
  have htrim : trimL t.data = t.data := trimL_fixed t.data htws ht2
  obtain ⟨c, rest, hcr⟩ : ∃ c rest, w.data = c :: rest := by
    cases hx : w.data with
    | nil => exact absurd hx hw
    | cons c rest => exact ⟨c, rest, rfl⟩
  refine ⟨?_, ?_, ?_⟩
  · have hm1 : matchSlash ('/' :: (w.data ++ ' ' :: t.data))
        = some (w.data, t.data) := by
      rw [matchSlash_form w.data t.data hw hl, hdrop]
    simp [detectModeOverride, hm1, hmapLower, htrim, string_mk_data]
  · have hne : c ≠ '/' := headLetter_ne hcr hl rfl
    have hm1 : matchSlash
        (w.data ++ ' ' :: 'm' :: 'o' :: 'd' :: 'e' :: ':' :: ' ' :: t.data)
        = none := by
      have he : w.data ++ ' ' :: 'm' :: 'o' :: 'd' :: 'e' :: ':' :: ' ' :: t.data
          = c :: (rest ++ ' ' :: 'm' :: 'o' :: 'd' :: 'e' :: ':' :: ' ' :: t.data) := by
        rw [hcr]
        rfl
      exact matchSlash_none_head he hne
    have hm2 : matchWordMode
        (w.data ++ ' ' :: 'm' :: 'o' :: 'd' :: 'e' :: ':' :: ' ' :: t.data)
        = some (w.data, t.data) := by
      rw [matchWordMode_form w.data t.data hw hl, hdropSep]
    simp [detectModeOverride, hm1, hm2, hmapLower, htrim, string_mk_data]
  · have hm1 : matchSlash ('\x5b' :: (w.data ++ '\x5d' :: ' ' :: t.data))
        = none := matchSlash_none_head rfl (by decide)
    have hm2 : matchWordMode ('\x5b' :: (w.data ++ '\x5d' :: ' ' :: t.data))
        = none := matchWordMode_none_head rfl (by decide)
    have hm3 : matchBracket ('\x5b' :: (w.data ++ '\x5d' :: ' ' :: t.data))
        = some (w.data, t.data) := by
      rw [matchBracket_form w.data t.data hw hl, hdrop]
    simp [detectModeOverride, hm1, hm2, hm3, hmapLower, htrim, string_mk_data]

/-- Helper: detectModeOverride on the three separator forms of an unlisted
all-letter word returns none. -/
theorem detect_forms_none (w t : String) (hw : w.data ≠ [])
    (hl : w.data.all isAsciiLetterB = true)
    (hmapLower : modeMapL (String.mk (toLowerL w.data)) = none) :
    detectModeOverride ("/" ++ w ++ " " ++ t) = none
    ∧ detectModeOverride (w ++ " mode: " ++ t) = none
    ∧ detectModeOverride ("\x5b" ++ w ++ "\x5d " ++ t) = none := by
  obtain ⟨c, rest, hcr⟩ : ∃ c rest, w.data = c :: rest := by
    cases hx : w.data with
    | nil => exact absurd hx hw
    | cons c rest => exact ⟨c, rest, rfl⟩
  refine ⟨?_, ?_, ?_⟩
  · have hm1 : matchSlash ('/' :: (w.data ++ ' ' :: t.data))
        = some (w.data, t.data.dropWhile isJsWs) :=
      matchSlash_form w.data t.data hw hl
    have hm2 : matchWordMode ('/' :: (w.data ++ ' ' :: t.data)) = none :=
      matchWordMode_none_head rfl (by decide)
    have hm3 : matchBracket ('/' :: (w.data ++ ' ' :: t.data)) = none :=
      matchBracket_none_head rfl (by decide)
    simp [detectModeOverride, hm1, hm2, hm3, hmapLower]
  · have hne : c ≠ '/' := headLetter_ne hcr hl rfl
    have hnb : c ≠ '\x5b' := headLetter_ne hcr hl rfl
    have he : w.data ++ ' ' :: 'm' :: 'o' :: 'd' :: 'e' :: ':' :: ' ' :: t.data
        = c :: (rest ++ ' ' :: 'm' :: 'o' :: 'd' :: 'e' :: ':' :: ' ' :: t.data) := by
      rw [hcr]
      rfl
    have hm1 : matchSlash
        (w.data ++ ' ' :: 'm' :: 'o' :: 'd' :: 'e' :: ':' :: ' ' :: t.data)
        = none := matchSlash_none_head he hne
    have hm2 : matchWordMode
        (w.data ++ ' ' :: 'm' :: 'o' :: 'd' :: 'e' :: ':' :: ' ' :: t.data)
        = some (w.data, t.data.dropWhile isSepChar) :=
      matchWordMode_form w.data t.data hw hl
    have hm3 : matchBracket
        (w.data ++ ' ' :: 'm' :: 'o' :: 'd' :: 'e' :: ':' :: ' ' :: t.data)
        = none := matchBracket_none_head he hnb
    simp [detectModeOverride, hm1, hm2, hm3, hmapLower]
  · have hm1 : matchSlash ('\x5b' :: (w.data ++ '\x5d' :: ' ' :: t.data))
        = none := matchSlash_none_head rfl (by decide)
    have hm2 : matchWordMode ('\x5b' :: (w.data ++ '\x5d' :: ' ' :: t.data))
        = none := matchWordMode_none_head rfl (by decide)
    have hm3 : matchBracket ('\x5b' :: (w.data ++ '\x5d' :: ' ' :: t.data))
        = some (w.data, t.data.dropWhile isJsWs) :=
      matchBracket_form w.data t.data hw hl
    simp [detectModeOverride, hm1, hm2, hm3, hmapLower]

set_option maxHeartbeats 2000000 in
/-- C7 amended: for every alias of the mode table and each of the three
separator forms, detect returns the alias's forced tier together with the
remainder after the matched prefix trimmed of surrounding whitespace; in
particular it returns exactly the text whenever the text neither starts
with a separator character (whitespace, colon or comma, which the greedy
separator runs of the regexes would swallow) nor ends in whitespace (which
the trim call would strip).  For any unlisted all-letter word, all three
forms yield no override, so the prompt is used unchanged. -/
theorem C7_override_amended :
    (∀ w tier t : String, modeMapL w = some tier →
      noLeadSep t.data = true → noTrailWs t.data = true →
      detectModeOverride ("/" ++ w ++ " " ++ t) = some (tier, t)
      ∧ detectModeOverride (w ++ " mode: " ++ t) = some (tier, t)
      ∧ detectModeOverride ("\x5b" ++ w ++ "\x5d " ++ t) = some (tier, t))
  ∧ (∀ w t : String, w.data ≠ [] → w.data.all isAsciiLetterB = true →
      modeMapL (String.mk (toLowerL w.data)) = none →
      detectModeOverride ("/" ++ w ++ " " ++ t) = none
      ∧ detectModeOverride (w ++ " mode: " ++ t) = none
      ∧ detectModeOverride ("\x5b" ++ w ++ "\x5d " ++ t) = none) := by
  constructor
  · intro w tier t hmap ht ht2
    unfold modeMapL at hmap
    split_ifs at hmap with h1 h2 h3 h4 h5 h6 h7 h8 h9 h10 h11
    all_goals first
      | (injection hmap with he; subst he; subst_vars;
         exact detect_forms _ _ t (by decide) (by decide) (by decide) ht ht2)
      | (exact Option.noConfusion hmap)
  · intro w t hw hl hmap
    exact detect_forms_none w t hw hl hmap

/-- C7 counterexample: with text hi followed by a space, the detector
returns the trimmed remainder hi, not the stripped text itself, so
detect of prefix plus text differs from the pair of tier and text. -/
theorem C7_override_trim_counterexample :
    detectModeOverride ("/max " ++ "hi ") = some ("REASONING", "hi")
  ∧ ("hi" : String) ≠ "hi " :=
  ⟨rfl, by decide⟩

/-- C7 witness: the amended round trip evaluated on the alias max and on
the unlisted word foo, over all three separator forms. -/
theorem C7_override_witness :
    (detectModeOverride ("/" ++ "max" ++ " " ++ "analyze this")
        = some ("REASONING", "analyze this")
     ∧ detectModeOverride ("max" ++ " mode: " ++ "analyze this")
        = some ("REASONING", "analyze this")
     ∧ detectModeOverride ("\x5b" ++ "max" ++ "\x5d " ++ "analyze this")
        = some ("REASONING", "analyze this"))
  ∧ (detectModeOverride ("/" ++ "foo" ++ " " ++ "analyze this") = none
     ∧ detectModeOverride ("foo" ++ " mode: " ++ "analyze this") = none
     ∧ detectModeOverride ("\x5b" ++ "foo" ++ "\x5d " ++ "analyze this")
        = none) :=
  ⟨C7_override_amended.1 "max" "REASONING" "analyze this" (by decide)
     (by decide) (by decide),
   C7_override_amended.2 "foo" "analyze this" (by decide) (by decide)
     (by decide)⟩

/-- Helper: the stall scan finds a firing time exactly when some adjacent
gap reaches the limit. -/
theorem firstStallGap_isSome (last : Nat) (l : List Nat) :
    (firstStallGap last l).isSome = hasStallPair last l := by
  induction l generalizing last with
  | nil => rfl
  | cons a rest ih =>
    simp only [firstStallGap, hasStallPair]
    split_ifs with h
    · simp [h]
    · simp [h, ih]

/-- C8: the per-tier attempt deadlines default to 30, 60, 120 and 120
seconds; in streaming mode an arrival schedule containing a gap of at
least the 30 second stall limit makes the attempt time out; and a
TimeoutError thrown before headers bumps the timeout counter and lets the
chain loop proceed to the next entry (fallback-eligible).  The deadline
and stall definitions are modelled from the spec because the provider
revision implementing them is absent from src/ (only its caller in
src/src/logger.ts and the CHANGELOG entry remain). -/
theorem C8_timeout_model :
    (tierTimeoutMs Tier.SIMPLE = 30000 ∧ tierTimeoutMs Tier.MEDIUM = 60000
      ∧ tierTimeoutMs Tier.COMPLEX = 120000
      ∧ tierTimeoutMs Tier.REASONING = 120000)
  ∧ (∀ tier arrivals finish, hasStallPair 0 arrivals = true →
      attemptTimesOut tier true arrivals finish = true)
  ∧ (∀ now modelName m bs,
      chainLoop now modelName
          (AttemptBehavior.preFail (ErrK.timeoutE m) :: bs) cleanRes 0 0 "prev"
        = chainLoop now modelName bs cleanRes 1 1 m) := by
  refine ⟨⟨rfl, rfl, rfl, rfl⟩, ?_, ?_⟩
  · intro tier arrivals finish h
    simp [attemptTimesOut, firstStallGap_isSome, h]
  · intro now modelName m bs
    rfl

/-- C8 witness: a stream stalling for 40 seconds between two arrivals
times out under the SIMPLE deadline model. -/
theorem C8_timeout_witness :
    hasStallPair 0 [5000, 45000] = true
  ∧ attemptTimesOut Tier.SIMPLE true [5000, 45000] 7000 = true :=
  ⟨by decide, C8_timeout_model.2.1 Tier.SIMPLE [5000, 45000] 7000 (by decide)⟩
